import Mathlib

/-!
Verification of the XTB feature-generation batch driver
(src/process_xtb/generate_xtb_by_batches.py).

The script is embedded shallowly:
- the filesystem is an association list from path to CSV content
  (a CSV file is modelled as its list of rows, each row a list of cells);
- the external bash script (process_molecule.sh, invoked through
  subprocess.run) and the morfeus library calls are oracles, supplied as
  parameters, since they are outside the repository;
- print statements become structured log entries;
- pandas read_csv, concat and to_csv are modelled as pure functions on
  a small DataFrame structure.
-/

namespace XTBFeatures

/-- A CSV file content: a list of rows, each row a list of cells. -/
abbrev FileContent := List (List String)

/-- The filesystem restricted to regular files: path to content. -/
abbrev FS := List (String × FileContent)

/-- Association-list lookup by path. -/
def alGet {β : Type} : List (String × β) → String → Option β
  | [], _ => none
  | (q, c) :: rest, p => if q = p then some c else alGet rest p

/-- Lookup of a file content (os.path access and open for reading). -/
def fsGet (fs : FS) (p : String) : Option FileContent := alGet fs p

/-- os.path.exists for the modelled filesystem. -/
def fsExists (fs : FS) (p : String) : Bool := (fsGet fs p).isSome

/-- Writing a file (open for writing followed by a complete write). -/
def fsSet : FS → String → FileContent → FS
  | [], p, c => [(p, c)]
  | (q, d) :: rest, p, c =>
    if q = p then (q, c) :: rest else (q, d) :: fsSet rest p c

/-- os.remove (total: removing an absent path leaves the state unchanged,
used only under an existence check in the embedded code). -/
def fsRemove : FS → String → FS
  | [], _ => []
  | (q, d) :: rest, p =>
    if q = p then fsRemove rest p else (q, d) :: fsRemove rest p

/-! ## Character-level string primitives

Python compares and splits strings by code point; these helpers mirror
that on the character list of a String (and, unlike the opaque String
primitives, they evaluate inside the kernel). -/

/-- Lexicographic-by-code-point comparison, Python string ≤. -/
def charListLe : List Char → List Char → Bool
  | [], _ => true
  | _ :: _, [] => false
  | c :: cs, d :: ds =>
    if c.toNat = d.toNat then charListLe cs ds
    else decide (c.toNat < d.toNat)

/-- Python string ≤ on Strings. -/
def strLe (a b : String) : Bool := charListLe a.data b.data

/-- str.endswith on character lists. -/
def endsWithChars (suffix cs : List Char) : Bool :=
  if suffix.length ≤ cs.length then
    decide (cs.drop (cs.length - suffix.length) = suffix)
  else false

/-- str.endswith. -/
def strEndsWith (s suffix : String) : Bool := endsWithChars suffix.data s.data

/-- str.startswith. -/
def strStartsWith (s pre : String) : Bool :=
  decide (s.data.take pre.data.length = pre.data)

/-! ## File Enumerator (get_all_xyz_files, source lines 24-36) -/

/-- State of the configured input directories: a directory path is a key
iff os.path.isdir holds for it, and its value is the os.listdir listing. -/
abbrev DirFS := List (String × List String)

/-- The files contributed by one configured directory: its listing
filtered to the ".xyz" extension, joined to the directory path; a missing
directory contributes nothing. -/
def xyzFilesOf (dfs : DirFS) (d : String) : List String :=
  match alGet dfs d with
  | some listing =>
      (listing.filter (fun f => strEndsWith f ".xyz")).map (fun f => d ++ "/" ++ f)
  | none => []

/-- Loop body of get_all_xyz_files: accumulate matching files of an
existing directory, or a warning for a missing one. -/
def enumStep (dfs : DirFS) (acc : List String × List String) (d : String) :
    List String × List String :=
  match alGet dfs d with
  | some listing =>
      (acc.1 ++ (listing.filter (fun f => strEndsWith f ".xyz")).map
        (fun f => d ++ "/" ++ f), acc.2)
  | none => (acc.1, acc.2 ++ ["Warning: Directory not found: " ++ d])

/-- get_all_xyz_files: gathers and sorts all .xyz file paths over the
configured directory list; returns the sorted paths and the warnings
printed for missing directories. -/
def get_all_xyz_files (dirs : List String) (dfs : DirFS) :
    List String × List String :=
  let p := dirs.foldl (enumStep dfs) ([], [])
  (p.1.insertionSort (fun a b => strLe a b = true), p.2)

/-! ## Molecule names and Python list indexing -/

/-- The characters after the last path separator. -/
def afterLastSlash : List Char → List Char → List Char
  | [], acc => acc.reverse
  | c :: rest, acc =>
    if c = '/' then afterLastSlash rest [] else afterLastSlash rest (c :: acc)

/-- os.path.basename: the component after the last path separator. -/
def basename (p : String) : String := String.mk (afterLastSlash p.data [])

/-- The characters before the last dot of a list, or none when the list
has no dot. -/
def splitLastDot : List Char → Option (List Char)
  | [] => none
  | c :: rest =>
    match splitLastDot rest with
    | some pre => some (c :: pre)
    | none => if c = '.' then some [] else none

/-- os.path.splitext applied to a basename, keeping the stem: leading
dots belong to the stem, and the extension starts at the last later dot. -/
def stemOfBasename (b : String) : String :=
  let cs := b.toList
  let lead := cs.takeWhile (fun c => c = '.')
  let rest := cs.drop lead.length
  match splitLastDot rest with
  | some pre => String.mk (lead ++ pre)
  | none => b

/-- mol_name = os.path.splitext(os.path.basename(xyz_file_path))[0]. -/
def molName (p : String) : String := stemOfBasename (basename p)

/-- Python list subscription with an Int index: nonnegative indices from
the front, negative indices from the back, none = IndexError. -/
def pythonGet (l : List String) (i : Int) : Option String :=
  if 0 ≤ i then l[i.toNat]?
  else if i.natAbs ≤ l.length then l[l.length - i.natAbs]?
  else none

/-- output_file = os.path.join(output_dir, mol_name ++ ".csv") for the
molecule of a geometry path. -/
def outFilePath (outputDir xyzPath : String) : String :=
  outputDir ++ "/" ++ molName xyzPath ++ ".csv"

/-- max 0 (hi - lo) consecutive integers starting at lo. -/
def intRangeAux : Int → Nat → List Int
  | _, 0 => []
  | lo, Nat.succ n => lo :: intRangeAux (lo + 1) n

/-- The integers of Python range(lo, hi). -/
def intRange (lo hi : Int) : List Int := intRangeAux lo (hi - lo).toNat

/-! ## Oracles for the external tool and the morfeus library -/

/-- Outcome of one subprocess.run of the bash script. `written` is the
content the external process left at the output path (if any) before the
outcome was observed: a non-zero exit can leave a partial file, and an
exception raised around the call (for instance while capturing output
after the child ran) can as well. -/
inductive ExtOutcome where
  | success (content : FileContent)
  | exitFailure (code : Int) (stdout stderr : String) (written : Option FileContent)
  | spawnException (msg : String) (written : Option FileContent)

/-- The five morfeus descriptors computed with corrected=True, as the
cell strings they become in the CSV. -/
structure MorfVals where
  ip : String
  ea : String
  electrophilicity : String
  electrofugality : String
  nucleofugality : String

/-- Environment behaviour, keyed by the geometry file path: the bash
script outcome, and the morfeus computation (read_xyz + XTB + the five
descriptor calls), which either fails with an exception message or
returns the five values. -/
structure Oracle where
  runBash : String → ExtOutcome
  morfeus : String → Except String MorfVals

/-! ## Batch driver state -/

/-- The print statements of generate_batch, structured. -/
inductive LogEntry where
  | processingHeader (startIndex endIndex datasetSize : Int)
  | skipping (index : Int) (name : String)
  | runningXtb (index : Int) (name : String)
  | bashFailed (xyzPath : String) (code : Int) (stdout stderr : String)
  | unexpectedSpawnError (xyzPath : String) (msg : String)
  | morfeusFailed (xyzPath : String) (msg : String)
  | combinedSuccess (index : Int) (name : String)
  deriving DecidableEq

/-- State threaded through the batch loop: the filesystem, the log, and
instrumentation recording each loop iteration reached (visited), each
subprocess.run call (bashCalls) and each morfeus step entered
(morfeusCalls), as (index, geometry path) pairs. -/
structure BatchState where
  fs : FS
  log : List LogEntry
  visited : List (Int × String)
  bashCalls : List (Int × String)
  morfeusCalls : List (Int × String)
  deriving DecidableEq

/-- Result of a run: final state, plus the uncaught exception when the
process died with a non-zero exit (only the IndexError of list
subscription is uncaught inside the loop). -/
structure BatchResult where
  state : BatchState
  uncaught : Option String
  deriving DecidableEq

/-- morfeus_header (source lines 134-140). -/
def morfeusHeader : List String :=
  ["ip", "ea", "electrophilicity", "electrofugality", "nucleofugality"]

/-- morfeus_data (source line 141). -/
def morfeusData (v : MorfVals) : List String :=
  [v.ip, v.ea, v.electrophilicity, v.electrofugality, v.nucleofugality]

/-- Apply the content the external process wrote, if any. -/
def applyWritten (fs : FS) (outFile : String) : Option FileContent → FS
  | some c => fsSet fs outFile c
  | none => fs

/-- Steps 2 and 3 of the loop body (source lines 114-172): morfeus
computation, read-back of the bash-produced header and data row (next on
the csv reader twice: fewer than two rows raises StopIteration), in-memory
concatenation, overwrite. Any exception removes the output file if
present and skips the molecule. -/
def augmentStep (o : Oracle) (xyzPath outFile : String) (index : Int)
    (name : String) (st : BatchState) : BatchState :=
  match o.morfeus xyzPath with
  | Except.error e =>
      { st with
        fs := fsRemove st.fs outFile
        log := st.log ++ [LogEntry.morfeusFailed xyzPath e] }
  | Except.ok v =>
      match fsGet st.fs outFile with
      | some (hdr :: row :: _) =>
          { st with
            fs := fsSet st.fs outFile
              [hdr ++ morfeusHeader, row ++ morfeusData v]
            log := st.log ++ [LogEntry.combinedSuccess index name] }
      | _ =>
          { st with
            fs := fsRemove st.fs outFile
            log := st.log ++ [LogEntry.morfeusFailed xyzPath "StopIteration"] }

/-- One loop iteration of generate_batch after the index has been
resolved to a geometry path (source lines 78-172): skip when the output
file exists; otherwise run the bash script, and on success augment. On a
non-zero exit the error and captured stdout/stderr are logged and the
output file is removed if present; on any other exception around the
subprocess call only a message is logged. -/
def processMolecule (o : Oracle) (outputDir : String) (index : Int)
    (xyzPath : String) (st : BatchState) : BatchState :=
  let name := molName xyzPath
  let outFile := outFilePath outputDir xyzPath
  if fsExists st.fs outFile then
    { st with log := st.log ++ [LogEntry.skipping index name] }
  else
    let st1 : BatchState :=
      { st with
        log := st.log ++ [LogEntry.runningXtb index name]
        bashCalls := st.bashCalls ++ [(index, xyzPath)] }
    match o.runBash xyzPath with
    | ExtOutcome.success content =>
        let st2 : BatchState :=
          { st1 with
            fs := fsSet st1.fs outFile content
            morfeusCalls := st1.morfeusCalls ++ [(index, xyzPath)] }
        augmentStep o xyzPath outFile index name st2
    | ExtOutcome.exitFailure code out err written =>
        { st1 with
          fs := fsRemove (applyWritten st1.fs outFile written) outFile
          log := st1.log ++ [LogEntry.bashFailed xyzPath code out err] }
    | ExtOutcome.spawnException msg written =>
        { st1 with
          fs := applyWritten st1.fs outFile written
          log := st1.log ++ [LogEntry.unexpectedSpawnError xyzPath msg] }

/-- The batch loop over the index list: resolve each index against the
sorted file list (an invalid index is an uncaught IndexError that aborts
the run), then process the molecule. -/
def runIndices (o : Oracle) (outputDir : String) (files : List String) :
    List Int → BatchState → BatchResult
  | [], st => ⟨st, none⟩
  | i :: rest, st =>
    match pythonGet files i with
    | none => ⟨st, some "IndexError: list index out of range"⟩
    | some xyzPath =>
        runIndices o outputDir files rest
          (processMolecule o outputDir i xyzPath
            { st with visited := st.visited ++ [(i, xyzPath)] })

/-- generate_batch (source lines 63-172): enumerate the dataset, clamp
the end index to the dataset size, and run the loop over
range(start_index, end_index) starting from filesystem fs0. -/
def generate_batch (o : Oracle) (dirs : List String) (dfs : DirFS)
    (start_index batch_size : Int) (output_dir : String) (fs0 : FS) :
    BatchResult :=
  let all_xyz_files := (get_all_xyz_files dirs dfs).1
  let dataset_size : Int := all_xyz_files.length
  let end_index := min (start_index + batch_size) dataset_size
  runIndices o output_dir all_xyz_files (intRange start_index end_index)
    { fs := fs0
      log := [LogEntry.processingHeader start_index end_index dataset_size]
      visited := []
      bashCalls := []
      morfeusCalls := [] }

/-! ## Combiner (combine_xtb, source lines 188-202)

pandas is a library outside the repository; read_csv, concat and to_csv
are modelled as pure functions over a small DataFrame type: read_csv of
an empty file raises EmptyDataError, concat with ignore_index takes the
column union in first-seen order and aligns rows (missing cells become
NaN), to_csv with index False writes header plus data rows and with
index True prepends the row-index column. -/

/-- A pandas DataFrame, reduced to its header and string rows. -/
structure DataFrame where
  header : List String
  rows : List (List String)
  deriving DecidableEq

/-- pd.read_csv on a file content: first row is the header, the rest are
data rows; an empty file raises EmptyDataError. -/
def pdReadCsv : FileContent → Except String DataFrame
  | [] => Except.error "EmptyDataError: No columns to parse from file"
  | hdr :: rows => Except.ok ⟨hdr, rows⟩

/-- Column union across frames, in first-seen order. -/
def unionCols (dfs : List DataFrame) : List String :=
  dfs.foldl (fun acc df => acc ++ df.header.filter (fun c => !acc.contains c)) []

/-- Position of the first occurrence of a column name in a header. -/
def indexOfFirst (c : String) : List String → Option Nat
  | [] => none
  | x :: rest => if x = c then some 0 else (indexOfFirst c rest).map (fun j => j + 1)

/-- The cell of an aligned row at column c: the source row cell under its
own header, or NaN when the column is absent. -/
def alignCell (hdr row : List String) (c : String) : String :=
  match indexOfFirst c hdr with
  | some j => row.getD j "NaN"
  | none => "NaN"

/-- pd.concat(df_list, ignore_index=True). -/
def pdConcat (dfs : List DataFrame) : DataFrame :=
  let cols := unionCols dfs
  ⟨cols, dfs.flatMap (fun df => df.rows.map (fun row => cols.map (alignCell df.header row)))⟩

/-- df.to_csv: with the index flag the RangeIndex becomes a first,
unnamed column; without it the file is the header row followed by the
data rows. -/
def toCsv (df : DataFrame) (index : Bool) : FileContent :=
  if index then
    ("" :: df.header) :: df.rows.enum.map (fun p => toString p.1 :: p.2)
  else
    df.header :: df.rows

/-- Whether glob.glob(input_dir ++ "/*.csv") matches a path: it lies
directly in the directory (no separator in the remainder), is not a
hidden file, and carries the .csv extension. -/
def globMatch (dir : String) (p : String) : Bool :=
  strStartsWith p (dir ++ "/") &&
  (let rest := p.data.drop (dir ++ "/").data.length
   (match rest with
    | '.' :: _ => false
    | _ => true) &&
   rest.all (fun c => !decide (c = '/')) &&
   endsWithChars ".csv".data rest)

/-- The glob result over the modelled filesystem, in enumeration order. -/
def globCsv (fs : FS) (dir : String) : List String :=
  (fs.map Prod.fst).filter (globMatch dir)

/-- Read a list of files, propagating the first read exception. -/
def readAll (fs : FS) : List String → Except String (List DataFrame)
  | [] => Except.ok []
  | f :: rest =>
    match pdReadCsv ((fsGet fs f).getD []) with
    | Except.error e => Except.error e
    | Except.ok df =>
      match readAll fs rest with
      | Except.error e => Except.error e
      | Except.ok dfs => Except.ok (df :: dfs)

/-- Result of combine_xtb: final filesystem, printed lines, and the
uncaught exception if one escaped (the function body has no handler). -/
structure CombineResult where
  fs : FS
  log : List String
  uncaught : Option String
  deriving DecidableEq

/-- combine_xtb: glob the per-molecule CSV files; with none found report
and return without writing; otherwise read them all, concatenate and
write the combined frame without the index column. A read failure is not
caught and escapes as a non-zero process exit. -/
def combine_xtb (fs : FS) (input_dir output_file : String) : CombineResult :=
  let searching := "Searching for CSV files in: " ++ input_dir
  let csv_files := globCsv fs input_dir
  if csv_files.isEmpty then
    ⟨fs, [searching,
          "Error: No .csv files found in " ++ input_dir ++ ". Nothing to combine."],
     none⟩
  else
    let found := "Found " ++ toString csv_files.length ++ " files to combine."
    match readAll fs csv_files with
    | Except.error e => ⟨fs, [searching, found], some e⟩
    | Except.ok df_list =>
        let combined_df := pdConcat df_list
        ⟨fsSet fs output_file (toCsv combined_df false),
         [searching, found,
          "Successfully combined " ++ toString combined_df.rows.length ++
            " entries into " ++ output_file],
         none⟩

/-- The geometry path the loop resolves for an index (meaningful when
the index is valid). -/
def xyzAt (files : List String) (i : Int) : String := (pythonGet files i).getD ""

/-- Whether a bash outcome is a success whose file has at least the
header and one data row. -/
def bashTwoRows : ExtOutcome → Bool
  | ExtOutcome.success (_ :: _ :: _) => true
  | _ => false

/-- Whether a morfeus outcome is a success. -/
def morfOk : Except String MorfVals → Bool
  | Except.ok _ => true
  | _ => false

/-- No-failure condition for one molecule: the bash script succeeds with
a well-formed two-row file and the morfeus step succeeds. -/
def moleculeNoFailure (o : Oracle) (x : String) : Bool :=
  bashTwoRows (o.runBash x) && morfOk (o.morfeus x)

/-- Whether a discovered CSV file is well formed for the Combiner: the
given shared header plus exactly one data row of matching width. -/
def wellFormedRow (fs : FS) (hdr : List String) (f : String) : Bool :=
  match fsGet fs f with
  | some [h2, row] => h2 == hdr && row.length == hdr.length
  | _ => false

/-- The single data row of a per-molecule CSV file. -/
def dataRowOf (fs : FS) (f : String) : List String :=
  match fsGet fs f with
  | some (_ :: row :: _) => row
  | _ => []

/-! ## Concrete test fixtures used by witnesses and counterexamples -/

/-- An environment where the bash script always succeeds with a header
and one data row and morfeus always succeeds. -/
def oracleAllOk : Oracle :=
  { runBash := fun _ => ExtOutcome.success [["mol_name", "m"], ["m", "1"]]
    morfeus := fun _ => Except.ok ⟨"1", "2", "3", "4", "5"⟩ }

/-- An environment where the subprocess call raises an exception other
than CalledProcessError after the child already wrote the output file
(for instance a UnicodeDecodeError while decoding captured output). -/
def oracleSpawnExc : Oracle :=
  { runBash := fun _ =>
      ExtOutcome.spawnException "UnicodeDecodeError" (some [["mol_name", "a"], ["a", "1"]])
    morfeus := fun _ => Except.ok ⟨"1", "2", "3", "4", "5"⟩ }

/-- An environment where the bash script exits non-zero after writing a
partial file. -/
def oracleExitFail : Oracle :=
  { runBash := fun _ => ExtOutcome.exitFailure 1 "out" "err" (some [["junk"]])
    morfeus := fun _ => Except.ok ⟨"1", "2", "3", "4", "5"⟩ }

/-- An environment where the first molecule's subprocess call raises a
non-CalledProcessError exception after the child wrote the file, and
every other molecule succeeds. -/
def oracleMixed : Oracle :=
  { runBash := fun x =>
      if x = "geoms/a.xyz" then
        ExtOutcome.spawnException "UnicodeDecodeError" (some [["mol_name", "a"], ["a", "1"]])
      else ExtOutcome.success [["mol_name", "m"], ["m", "1"]]
    morfeus := fun _ => Except.ok ⟨"1", "2", "3", "4", "5"⟩ }

/-- A dataset of 120 geometry files in one directory. -/
def dfs120 : DirFS :=
  [("geoms", (List.range 120).map (fun k => "mol" ++ toString (100 + k) ++ ".xyz"))]

/-! ## Helper lemmas about the filesystem, indexing and the loop -/

theorem fsGet_fsSet_self (fs : FS) (p : String) (c : FileContent) :
    fsGet (fsSet fs p c) p = some c := by
  induction fs with
  | nil => simp [fsSet, fsGet, alGet]
  | cons kv rest ih =>
    obtain ⟨q, d⟩ := kv
    by_cases h : q = p
    · simp [fsSet, fsGet, alGet, h]
    · simp [fsSet, fsGet, alGet, h] at ih ⊢
      exact ih

theorem fsGet_fsSet_ne (fs : FS) (p p2 : String) (c : FileContent)
    (h : p2 ≠ p) : fsGet (fsSet fs p c) p2 = fsGet fs p2 := by
  induction fs with
  | nil => simp [fsSet, fsGet, alGet, Ne.symm h]
  | cons kv rest ih =>
    obtain ⟨q, d⟩ := kv
    by_cases hq : q = p
    · subst hq
      simp [fsSet, fsGet, alGet, Ne.symm h]
    · by_cases hq2 : q = p2
      · simp [fsSet, fsGet, alGet, hq, hq2, h]
      · simp [fsSet, fsGet, alGet, hq, hq2] at ih ⊢
        exact ih

theorem fsGet_fsRemove_self (fs : FS) (p : String) :
    fsGet (fsRemove fs p) p = none := by
  induction fs with
  | nil => simp [fsRemove, fsGet, alGet]
  | cons kv rest ih =>
    obtain ⟨q, d⟩ := kv
    by_cases h : q = p
    · simpa [fsRemove, h] using ih
    · simp [fsRemove, fsGet, alGet, h] at ih ⊢
      exact ih

theorem fsGet_fsRemove_ne (fs : FS) (p p2 : String) (h : p2 ≠ p) :
    fsGet (fsRemove fs p) p2 = fsGet fs p2 := by
  induction fs with
  | nil => simp [fsRemove]
  | cons kv rest ih =>
    obtain ⟨q, d⟩ := kv
    by_cases hq : q = p
    · subst hq
      simp [fsRemove, fsGet, alGet, Ne.symm h] at ih ⊢
      exact ih
    · by_cases hq2 : q = p2
      · simp [fsRemove, fsGet, alGet, hq, hq2, h]
      · simp [fsRemove, fsGet, alGet, hq, hq2] at ih ⊢
        exact ih

theorem enum_foldl_spec (dfs : DirFS) (dirs : List String)
    (fs0 ws0 : List String) :
    dirs.foldl (enumStep dfs) (fs0, ws0) =
      (fs0 ++ dirs.flatMap (xyzFilesOf dfs),
       ws0 ++ (dirs.filter (fun d => (alGet dfs d).isNone)).map
         (fun d => "Warning: Directory not found: " ++ d)) := by
  induction dirs generalizing fs0 ws0 with
  | nil => simp
  | cons d rest ih =>
    cases h : alGet dfs d with
    | none =>
      simp only [List.foldl_cons, enumStep, h]
      rw [ih]
      simp [xyzFilesOf, h]
    | some listing =>
      simp only [List.foldl_cons, enumStep, h]
      rw [ih]
      simp [xyzFilesOf, h]


theorem fsSet_fsSet_self (fs : FS) (p : String) (c d : FileContent) :
    fsSet (fsSet fs p c) p d = fsSet fs p d := by
  induction fs with
  | nil => simp [fsSet]
  | cons kv rest ih =>
    obtain ⟨q, e⟩ := kv
    by_cases h : q = p
    · simp [fsSet, h]
    · simp [fsSet, h, ih]

theorem outFilePath_inj (d x y : String)
    (h : outFilePath d x = outFilePath d y) : molName x = molName y := by
  unfold outFilePath at h
  have h2 := congrArg String.data h
  simp only [String.data_append] at h2
  exact String.ext (List.append_cancel_left (List.append_cancel_right h2))

theorem mem_intRangeAux {n : Nat} {lo i : Int} :
    i ∈ intRangeAux lo n ↔ lo ≤ i ∧ i < lo + n := by
  induction n generalizing lo with
  | zero => simp [intRangeAux]
  | succ n ih =>
    simp only [intRangeAux, List.mem_cons, ih]
    push_cast
    omega

theorem mem_intRange {lo hi i : Int} : i ∈ intRange lo hi ↔ lo ≤ i ∧ i < hi := by
  unfold intRange
  rw [mem_intRangeAux]
  omega

theorem intRange_eq_nil {lo hi : Int} (h : hi ≤ lo) : intRange lo hi = [] := by
  unfold intRange
  have h0 : (hi - lo).toNat = 0 := by omega
  rw [h0]
  rfl

theorem intRange_cons {lo hi : Int} (h : lo < hi) :
    intRange lo hi = lo :: intRange (lo + 1) hi := by
  unfold intRange
  have h1 : (hi - lo).toNat = (hi - (lo + 1)).toNat + 1 := by omega
  rw [h1]
  rfl

theorem pythonGet_isSome {l : List String} {i : Int}
    (h : 0 ≤ i ∧ i < l.length ∨ i < 0 ∧ i.natAbs ≤ l.length) :
    (pythonGet l i).isSome = true := by
  unfold pythonGet
  rcases h with ⟨h1, h2⟩ | ⟨h1, h2⟩
  · rw [if_pos h1]
    have hlt : i.toNat < l.length := by omega
    simp [List.getElem?_eq_getElem hlt]
  · rw [if_neg (by omega), if_pos h2]
    have hlt : l.length - i.natAbs < l.length := by omega
    simp [List.getElem?_eq_getElem hlt]

theorem pythonGet_neg {l : List String} {i : Int} (h1 : i < 0)
    (h2 : i.natAbs ≤ l.length) :
    pythonGet l i = l[l.length - i.natAbs]? := by
  unfold pythonGet
  rw [if_neg (by omega), if_pos h2]

theorem applyWritten_other (fs : FS) (outFile p : String)
    (w : Option FileContent) (hp : p ≠ outFile) :
    fsGet (applyWritten fs outFile w) p = fsGet fs p := by
  cases w with
  | none => rfl
  | some c => exact fsGet_fsSet_ne fs outFile p c hp

theorem augmentStep_visited (o : Oracle) (xyzPath outFile : String)
    (index : Int) (name : String) (st : BatchState) :
    (augmentStep o xyzPath outFile index name st).visited = st.visited := by
  unfold augmentStep
  cases o.morfeus xyzPath with
  | error e => rfl
  | ok v =>
    cases fsGet st.fs outFile with
    | none => rfl
    | some c =>
      match c with
      | [] => rfl
      | [hdr] => rfl
      | hdr :: row :: rest => rfl

theorem processMolecule_visited (o : Oracle) (outputDir : String)
    (index : Int) (xyzPath : String) (st : BatchState) :
    (processMolecule o outputDir index xyzPath st).visited = st.visited := by
  unfold processMolecule
  by_cases h : fsExists st.fs (outFilePath outputDir xyzPath)
  · simp [h]
  · simp only [h, Bool.false_eq_true, if_false, Bool.not_eq_true]
    cases o.runBash xyzPath with
    | success content => rw [augmentStep_visited]
    | exitFailure code out err w => rfl
    | spawnException msg w => rfl

theorem processMolecule_fs_other (o : Oracle) (outputDir : String)
    (index : Int) (xyzPath : String) (st : BatchState) (p : String)
    (hp : p ≠ outFilePath outputDir xyzPath) :
    fsGet (processMolecule o outputDir index xyzPath st).fs p = fsGet st.fs p := by
  unfold processMolecule
  by_cases h : fsExists st.fs (outFilePath outputDir xyzPath)
  · simp [h]
  · simp only [h, Bool.false_eq_true, if_false]
    cases o.runBash xyzPath with
    | success content =>
      unfold augmentStep
      cases o.morfeus xyzPath with
      | error e =>
        simp only []
        rw [fsGet_fsRemove_ne _ _ _ hp, fsGet_fsSet_ne _ _ _ _ hp]
      | ok v =>
        cases hget : fsGet (fsSet st.fs (outFilePath outputDir xyzPath) content)
            (outFilePath outputDir xyzPath) with
        | none =>
          simp only [hget]
          rw [fsGet_fsRemove_ne _ _ _ hp, fsGet_fsSet_ne _ _ _ _ hp]
        | some c =>
          match c with
          | [] =>
            simp only [hget]
            rw [fsGet_fsRemove_ne _ _ _ hp, fsGet_fsSet_ne _ _ _ _ hp]
          | [hdr] =>
            simp only [hget]
            rw [fsGet_fsRemove_ne _ _ _ hp, fsGet_fsSet_ne _ _ _ _ hp]
          | hdr :: row :: rest =>
            simp only [hget]
            rw [fsGet_fsSet_ne _ _ _ _ hp, fsGet_fsSet_ne _ _ _ _ hp]
    | exitFailure code out err w =>
      simp only []
      rw [fsGet_fsRemove_ne _ _ _ hp, applyWritten_other _ _ _ _ hp]
    | spawnException msg w =>
      simp only []
      rw [applyWritten_other _ _ _ _ hp]

theorem bashTwoRows_spec {e : ExtOutcome} (h : bashTwoRows e = true) :
    ∃ hdr row restc, e = ExtOutcome.success (hdr :: row :: restc) := by
  cases e with
  | success c =>
    match c with
    | [] => simp [bashTwoRows] at h
    | [hdr] => simp [bashTwoRows] at h
    | hdr :: row :: restc => exact ⟨hdr, row, restc, rfl⟩
  | exitFailure code out err w => simp [bashTwoRows] at h
  | spawnException msg w => simp [bashTwoRows] at h

theorem morfOk_spec {e : Except String MorfVals} (h : morfOk e = true) :
    ∃ v, e = Except.ok v := by
  cases e with
  | ok v => exact ⟨v, rfl⟩
  | error msg => simp [morfOk] at h

theorem processMolecule_skip (o : Oracle) (d : String) (i : Int) (x : String)
    (st : BatchState) (h : fsExists st.fs (outFilePath d x) = true) :
    processMolecule o d i x st =
      { st with log := st.log ++ [LogEntry.skipping i (molName x)] } := by
  simp [processMolecule, h]

theorem processMolecule_success (o : Oracle) (d : String) (i : Int) (x : String)
    (st : BatchState) (habs : fsGet st.fs (outFilePath d x) = none)
    (hok : moleculeNoFailure o x = true) :
    ∃ content, processMolecule o d i x st =
      { st with
        fs := fsSet st.fs (outFilePath d x) content
        log := st.log ++ [LogEntry.runningXtb i (molName x),
                          LogEntry.combinedSuccess i (molName x)]
        bashCalls := st.bashCalls ++ [(i, x)]
        morfeusCalls := st.morfeusCalls ++ [(i, x)] } := by
  unfold moleculeNoFailure at hok
  obtain ⟨hb, hm⟩ := Bool.and_eq_true_iff.mp hok
  obtain ⟨hdr, row, restc, hbeq⟩ := bashTwoRows_spec hb
  obtain ⟨v, hmeq⟩ := morfOk_spec hm
  refine ⟨[hdr ++ morfeusHeader, row ++ morfeusData v], ?_⟩
  have hexists : fsExists st.fs (outFilePath d x) = false := by
    simp [fsExists, habs]
  simp only [processMolecule, hexists, Bool.false_eq_true, if_false, hbeq]
  unfold augmentStep
  simp only [hmeq, fsGet_fsSet_self, fsSet_fsSet_self]
  simp [List.append_assoc]

theorem runIndices_valid (o : Oracle) (outputDir : String)
    (files : List String) (idxs : List Int) (st : BatchState)
    (hvalid : ∀ i ∈ idxs, (pythonGet files i).isSome = true) :
    (runIndices o outputDir files idxs st).uncaught = none ∧
    (runIndices o outputDir files idxs st).state.visited =
      st.visited ++ idxs.map (fun i => (i, xyzAt files i)) := by
  induction idxs generalizing st with
  | nil => simp [runIndices]
  | cons i rest ih =>
    have hi := hvalid i (by simp)
    obtain ⟨x, hx⟩ := Option.isSome_iff_exists.mp hi
    have hrest : ∀ j ∈ rest, (pythonGet files j).isSome = true :=
      fun j hj => hvalid j (by simp [hj])
    simp only [runIndices, hx]
    obtain ⟨h1, h2⟩ := ih _ hrest
    refine ⟨h1, ?_⟩
    rw [h2, processMolecule_visited]
    simp [xyzAt, hx]

theorem runIndices_fs_preserve (o : Oracle) (outputDir : String)
    (files : List String) (idxs : List Int) (st : BatchState) (p : String)
    (hvalid : ∀ i ∈ idxs, (pythonGet files i).isSome = true)
    (hne : ∀ i ∈ idxs, outFilePath outputDir (xyzAt files i) ≠ p) :
    fsGet (runIndices o outputDir files idxs st).state.fs p = fsGet st.fs p := by
  induction idxs generalizing st with
  | nil => simp [runIndices]
  | cons i rest ih =>
    have hi := hvalid i (by simp)
    obtain ⟨x, hx⟩ := Option.isSome_iff_exists.mp hi
    have hxat : xyzAt files i = x := by simp [xyzAt, hx]
    simp only [runIndices, hx]
    rw [ih _ (fun j hj => hvalid j (by simp [hj]))
        (fun j hj => hne j (by simp [hj]))]
    exact processMolecule_fs_other o outputDir i x _ p
      (fun hp => hne i (by simp) (by rw [hxat]; exact hp.symm))

theorem runIndices_allPresent (o : Oracle) (outputDir : String)
    (files : List String) (idxs : List Int) (st : BatchState)
    (hvalid : ∀ i ∈ idxs, (pythonGet files i).isSome = true)
    (hpresent : ∀ i ∈ idxs,
      fsExists st.fs (outFilePath outputDir (xyzAt files i)) = true) :
    (runIndices o outputDir files idxs st).uncaught = none ∧
    (runIndices o outputDir files idxs st).state.fs = st.fs ∧
    (runIndices o outputDir files idxs st).state.bashCalls = st.bashCalls ∧
    (runIndices o outputDir files idxs st).state.morfeusCalls = st.morfeusCalls := by
  induction idxs generalizing st with
  | nil => simp [runIndices]
  | cons i rest ih =>
    have hi := hvalid i (by simp)
    obtain ⟨x, hx⟩ := Option.isSome_iff_exists.mp hi
    have hxat : xyzAt files i = x := by simp [xyzAt, hx]
    simp only [runIndices, hx]
    rw [processMolecule_skip o outputDir i x _
      (by have := hpresent i (by simp); rw [hxat] at this; exact this)]
    exact ih _ (fun j hj => hvalid j (by simp [hj]))
      (fun j hj => hpresent j (by simp [hj]))

theorem runIndices_allSuccess (o : Oracle) (outputDir : String)
    (files : List String) (idxs : List Int) (st : BatchState)
    (hvalid : ∀ i ∈ idxs, (pythonGet files i).isSome = true)
    (hok : ∀ i ∈ idxs, moleculeNoFailure o (xyzAt files i) = true)
    (habsent : ∀ i ∈ idxs,
      fsGet st.fs (outFilePath outputDir (xyzAt files i)) = none)
    (hdist : idxs.Pairwise
      (fun a b => molName (xyzAt files a) ≠ molName (xyzAt files b))) :
    (runIndices o outputDir files idxs st).uncaught = none ∧
    (runIndices o outputDir files idxs st).state.bashCalls =
      st.bashCalls ++ idxs.map (fun i => (i, xyzAt files i)) ∧
    (runIndices o outputDir files idxs st).state.morfeusCalls =
      st.morfeusCalls ++ idxs.map (fun i => (i, xyzAt files i)) ∧
    (∀ i ∈ idxs, (fsGet (runIndices o outputDir files idxs st).state.fs
      (outFilePath outputDir (xyzAt files i))).isSome = true) ∧
    (∀ p, (∀ i ∈ idxs, outFilePath outputDir (xyzAt files i) ≠ p) →
      fsGet (runIndices o outputDir files idxs st).state.fs p = fsGet st.fs p) := by
  induction idxs generalizing st with
  | nil => simp [runIndices]
  | cons i rest ih =>
    have hi := hvalid i (by simp)
    obtain ⟨x, hx⟩ := Option.isSome_iff_exists.mp hi
    have hxat : xyzAt files i = x := by simp [xyzAt, hx]
    have hnames : ∀ j ∈ rest, molName (xyzAt files i) ≠ molName (xyzAt files j) :=
      fun j hj => (List.pairwise_cons.mp hdist).1 j hj
    have hpaths : ∀ j ∈ rest,
        outFilePath outputDir (xyzAt files j) ≠ outFilePath outputDir x := by
      intro j hj hcontra
      exact hnames j hj (by rw [hxat, outFilePath_inj _ _ _ hcontra])
    obtain ⟨content, hproc⟩ := processMolecule_success o outputDir i x
      { st with visited := st.visited ++ [(i, x)] }
      (by rw [← hxat]; exact habsent i (by simp)) (by rw [← hxat]; exact hok i (by simp))
    simp only [runIndices, hx, hproc]
    set st2 : BatchState :=
      { st with
        visited := st.visited ++ [(i, x)]
        fs := fsSet st.fs (outFilePath outputDir x) content
        log := st.log ++ [LogEntry.runningXtb i (molName x),
                          LogEntry.combinedSuccess i (molName x)]
        bashCalls := st.bashCalls ++ [(i, x)]
        morfeusCalls := st.morfeusCalls ++ [(i, x)] } with hst2
    have habsent2 : ∀ j ∈ rest,
        fsGet st2.fs (outFilePath outputDir (xyzAt files j)) = none := by
      intro j hj
      rw [hst2]
      simp only []
      rw [fsGet_fsSet_ne _ _ _ _ (hpaths j hj)]
      exact habsent j (by simp [hj])
    obtain ⟨ih1, ih2, ih3, ih4, ih5⟩ := ih st2
      (fun j hj => hvalid j (by simp [hj]))
      (fun j hj => hok j (by simp [hj]))
      habsent2
      (List.pairwise_cons.mp hdist).2
    refine ⟨ih1, ?_, ?_, ?_, ?_⟩
    · rw [ih2, hst2]
      simp [hxat, List.append_assoc]
    · rw [ih3, hst2]
      simp [hxat, List.append_assoc]
    · intro j hj
      rcases List.mem_cons.mp hj with hj1 | hj2
      · subst hj1
        rw [ih5 _ (fun k hk => by rw [hxat]; exact hpaths k hk), hst2]
        simp only []
        rw [hxat, fsGet_fsSet_self]
        rfl
      · exact ih4 j hj2
    · intro p hp
      rw [ih5 p (fun k hk => hp k (by simp [hk])), hst2]
      simp only []
      rw [fsGet_fsSet_ne _ _ _ _ (by rw [← hxat]; exact (hp i (by simp)).symm)]

theorem processMolecule_exitFailure (o : Oracle) (d : String) (i : Int)
    (x : String) (st : BatchState)
    (habs : fsExists st.fs (outFilePath d x) = false)
    (code : Int) (out err : String) (w : Option FileContent)
    (hb : o.runBash x = ExtOutcome.exitFailure code out err w) :
    processMolecule o d i x st =
      { st with
        fs := fsRemove (applyWritten st.fs (outFilePath d x) w) (outFilePath d x)
        log := st.log ++ [LogEntry.runningXtb i (molName x),
                          LogEntry.bashFailed x code out err]
        bashCalls := st.bashCalls ++ [(i, x)] } := by
  simp [processMolecule, habs, hb, List.append_assoc]

theorem processMolecule_spawnExc (o : Oracle) (d : String) (i : Int)
    (x : String) (st : BatchState)
    (habs : fsExists st.fs (outFilePath d x) = false)
    (msg : String) (w : Option FileContent)
    (hb : o.runBash x = ExtOutcome.spawnException msg w) :
    processMolecule o d i x st =
      { st with
        fs := applyWritten st.fs (outFilePath d x) w
        log := st.log ++ [LogEntry.runningXtb i (molName x),
                          LogEntry.unexpectedSpawnError x msg]
        bashCalls := st.bashCalls ++ [(i, x)] } := by
  simp [processMolecule, habs, hb, List.append_assoc]

theorem runIndices_target_absent (o : Oracle) (d : String)
    (files : List String) (idxs : List Int) (st : BatchState) (t : String)
    (hvalid : ∀ j ∈ idxs, (pythonGet files j).isSome = true)
    (ht : fsGet st.fs t = none)
    (hfail : ∀ j ∈ idxs, outFilePath d (xyzAt files j) = t →
      ∃ code out err w,
        o.runBash (xyzAt files j) = ExtOutcome.exitFailure code out err w) :
    fsGet (runIndices o d files idxs st).state.fs t = none := by
  induction idxs generalizing st with
  | nil => simpa [runIndices] using ht
  | cons j rest ih =>
    have hj := hvalid j (by simp)
    obtain ⟨x, hx⟩ := Option.isSome_iff_exists.mp hj
    have hxat : xyzAt files j = x := by simp [xyzAt, hx]
    simp only [runIndices, hx]
    by_cases hout : outFilePath d x = t
    · obtain ⟨code, out, err, w, hb⟩ := hfail j (by simp) (by rw [hxat, hout])
      rw [hxat] at hb
      rw [processMolecule_exitFailure o d j x _
        (by simp [fsExists]; rw [hout]; exact ht) code out err w hb]
      refine ih _ (fun k hk => hvalid k (by simp [hk])) ?_
        (fun k hk h2 => hfail k (by simp [hk]) h2)
      simp only []
      rw [← hout]
      exact fsGet_fsRemove_self _ _
    · have hstep : fsGet (processMolecule o d j x
          { st with visited := st.visited ++ [(j, x)] }).fs t = none := by
        rw [processMolecule_fs_other o d j x _ t (fun h2 => hout h2.symm)]
        exact ht
      exact ih _ (fun k hk => hvalid k (by simp [hk]))
        hstep (fun k hk h2 => hfail k (by simp [hk]) h2)

theorem valid_of_bound (files : List String) (start_index batch_size : Int)
    (h : 0 ≤ start_index ∨ start_index.natAbs ≤ files.length) :
    ∀ i ∈ intRange start_index
      (min (start_index + batch_size) (files.length : Int)),
      (pythonGet files i).isSome = true := by
  intro i hi
  rw [mem_intRange] at hi
  have h2 : i < (files.length : Int) :=
    lt_of_lt_of_le hi.2 (min_le_right _ _)
  apply pythonGet_isSome
  rcases h with h | h
  · left
    omega
  · by_cases h0 : 0 ≤ i
    · left
      omega
    · right
      omega

theorem generate_batch_eq (o : Oracle) (dirs : List String) (dfs : DirFS)
    (start_index batch_size : Int) (output_dir : String) (fs0 : FS) :
    generate_batch o dirs dfs start_index batch_size output_dir fs0 =
      runIndices o output_dir (get_all_xyz_files dirs dfs).1
        (intRange start_index (min (start_index + batch_size)
          (((get_all_xyz_files dirs dfs).1.length : Int))))
        { fs := fs0
          log := [LogEntry.processingHeader start_index
            (min (start_index + batch_size)
              (((get_all_xyz_files dirs dfs).1.length : Int)))
            (((get_all_xyz_files dirs dfs).1.length : Int))]
          visited := []
          bashCalls := []
          morfeusCalls := [] } := rfl

theorem wellFormedRow_spec {fs : FS} {hdr : List String} {f : String}
    (h : wellFormedRow fs hdr f = true) :
    ∃ row, fsGet fs f = some [hdr, row] ∧ row.length = hdr.length ∧
      dataRowOf fs f = row := by
  unfold wellFormedRow at h
  cases hget : fsGet fs f with
  | none => rw [hget] at h; simp at h
  | some c =>
    rw [hget] at h
    cases c with
    | nil => simp at h
    | cons r1 c1 =>
      cases c1 with
      | nil => simp at h
      | cons r2 c2 =>
        cases c2 with
        | nil =>
          simp only [Bool.and_eq_true, beq_iff_eq] at h
          obtain ⟨h1, h2⟩ := h
          refine ⟨r2, ?_, ?_, ?_⟩
          · rw [h1]
          · simpa using h2
          · simp [dataRowOf, hget]
        | cons r3 c3 => simp at h

theorem readAll_wf (fs : FS) (hdr : List String) (fl : List String)
    (hwf : ∀ f ∈ fl, wellFormedRow fs hdr f = true) :
    readAll fs fl =
      Except.ok (fl.map (fun f => ⟨hdr, [dataRowOf fs f]⟩)) := by
  induction fl with
  | nil => rfl
  | cons f rest ih =>
    obtain ⟨row, hget, hlen, hrow⟩ := wellFormedRow_spec (hwf f (by simp))
    simp only [readAll, hget, Option.getD_some, pdReadCsv]
    rw [ih (fun g hg => hwf g (by simp [hg]))]
    simp [hrow]

theorem filter_not_contained (hdr acc : List String)
    (hsub : ∀ c ∈ hdr, c ∈ acc) :
    hdr.filter (fun c => !acc.contains c) = [] := by
  rw [List.filter_eq_nil_iff]
  intro a ha
  simp [hsub a ha]

theorem unionCols_aux (dfs : List DataFrame) (hdr : List String)
    (hall : ∀ df ∈ dfs, df.header = hdr) :
    dfs.foldl (fun acc df => acc ++ df.header.filter (fun c => !acc.contains c))
      hdr = hdr := by
  induction dfs with
  | nil => rfl
  | cons df rest ih =>
    simp only [List.foldl_cons]
    rw [hall df (by simp), filter_not_contained hdr hdr (fun c hc => hc),
      List.append_nil]
    exact ih (fun g hg => hall g (by simp [hg]))

theorem unionCols_same (dfs : List DataFrame) (hdr : List String)
    (hne : dfs ≠ []) (hall : ∀ df ∈ dfs, df.header = hdr) :
    unionCols dfs = hdr := by
  cases dfs with
  | nil => exact absurd rfl hne
  | cons df rest =>
    unfold unionCols
    simp only [List.foldl_cons, List.nil_append]
    have h1 : df.header.filter (fun c => !List.contains [] c) = df.header := by
      simp
    rw [h1, hall df (by simp)]
    exact unionCols_aux rest hdr (fun g hg => hall g (by simp [hg]))

theorem indexOfFirst_head (c : String) (tl : List String) :
    indexOfFirst c (c :: tl) = some 0 := by
  simp [indexOfFirst]

theorem alignCell_cons_ne (h r : String) (tl rtl : List String) (c : String)
    (hne : h ≠ c) :
    alignCell (h :: tl) (r :: rtl) c = alignCell tl rtl c := by
  unfold alignCell
  simp only [indexOfFirst, hne, if_false]
  cases indexOfFirst c tl with
  | none => rfl
  | some j => simp

theorem align_self (hdr : List String) (row : List String) (hnd : hdr.Nodup)
    (hlen : row.length = hdr.length) :
    hdr.map (alignCell hdr row) = row := by
  induction hdr generalizing row with
  | nil =>
    cases row with
    | nil => rfl
    | cons r rtl => simp at hlen
  | cons h tl ih =>
    cases row with
    | nil => simp at hlen
    | cons r rtl =>
      have hnotin : h ∉ tl := (List.nodup_cons.mp hnd).1
      simp only [List.map_cons]
      congr 1
      · unfold alignCell
        rw [indexOfFirst_head]
        simp
      · rw [List.map_congr_left
          (fun c hc => alignCell_cons_ne h r tl rtl c
            (fun he => hnotin (by rw [he]; exact hc)))]
        exact ih rtl (List.nodup_cons.mp hnd).2 (by simpa using hlen)

theorem rows_align_wf (fs : FS) (hdr : List String) (hnd : hdr.Nodup) :
    ∀ fl : List String, (∀ f ∈ fl, wellFormedRow fs hdr f = true) →
    (fl.map (fun f => (⟨hdr, [dataRowOf fs f]⟩ : DataFrame))).flatMap
      (fun df => df.rows.map (fun row => hdr.map (alignCell df.header row))) =
    fl.map (dataRowOf fs) := by
  intro fl
  induction fl with
  | nil => intro _; rfl
  | cons f rest ih =>
    intro hwf
    obtain ⟨row, hget, hlen, hrow⟩ := wellFormedRow_spec (hwf f (by simp))
    simp only [List.map_cons, List.flatMap_cons]
    rw [ih (fun g hg => hwf g (by simp [hg]))]
    simp only [List.map_cons, List.map_nil]
    rw [align_self hdr (dataRowOf fs f) hnd (by rw [hrow]; exact hlen)]
    rfl

theorem pdConcat_wf (fs : FS) (hdr : List String) (fl : List String)
    (hnd : hdr.Nodup) (hne : fl ≠ [])
    (hwf : ∀ f ∈ fl, wellFormedRow fs hdr f = true) :
    pdConcat (fl.map (fun f => ⟨hdr, [dataRowOf fs f]⟩)) =
      ⟨hdr, fl.map (dataRowOf fs)⟩ := by
  have hcols : unionCols (fl.map (fun f => ⟨hdr, [dataRowOf fs f]⟩)) = hdr := by
    apply unionCols_same _ hdr
    · cases fl with
      | nil => exact absurd rfl hne
      | cons a b => simp
    · intro df hdf
      obtain ⟨f, hf, hfeq⟩ := List.mem_map.mp hdf
      rw [← hfeq]
  unfold pdConcat
  rw [hcols]
  simp only [DataFrame.mk.injEq, true_and]
  exact rows_align_wf fs hdr hnd fl hwf

theorem charListLe_total : ∀ a b, charListLe a b = true ∨ charListLe b a = true := by
  intro a
  induction a with
  | nil => intro b; left; rfl
  | cons c cs ih =>
    intro b
    cases b with
    | nil => right; rfl
    | cons d ds =>
      simp only [charListLe]
      rcases Nat.lt_trichotomy c.toNat d.toNat with hlt | heq | hgt
      · left
        rw [if_neg (by omega)]
        simpa using hlt
      · rcases ih ds with h | h
        · left
          rw [if_pos heq]
          exact h
        · right
          rw [if_pos heq.symm]
          exact h
      · right
        rw [if_neg (by omega)]
        simpa using hgt

theorem charListLe_trans :
    ∀ a b c, charListLe a b = true → charListLe b c = true →
      charListLe a c = true := by
  intro a
  induction a with
  | nil => intro b c _ _; rfl
  | cons x xs ih =>
    intro b c hab hbc
    cases b with
    | nil => simp [charListLe] at hab
    | cons y ys =>
      cases c with
      | nil => simp [charListLe] at hbc
      | cons z zs =>
        simp only [charListLe] at hab hbc ⊢
        by_cases hxy : x.toNat = y.toNat
        · rw [if_pos hxy] at hab
          by_cases hyz : y.toNat = z.toNat
          · rw [if_pos hyz] at hbc
            rw [if_pos (hxy.trans hyz)]
            exact ih _ _ hab hbc
          · rw [if_neg hyz] at hbc
            simp only [decide_eq_true_eq] at hbc
            rw [if_neg (by omega)]
            simp only [decide_eq_true_eq]
            omega
        · rw [if_neg hxy] at hab
          simp only [decide_eq_true_eq] at hab
          by_cases hyz : y.toNat = z.toNat
          · rw [if_neg (by omega)]
            simp only [decide_eq_true_eq]
            omega
          · rw [if_neg hyz] at hbc
            simp only [decide_eq_true_eq] at hbc
            rw [if_neg (by omega)]
            simp only [decide_eq_true_eq]
            omega

theorem map_fst_pair (f : Int → String) (l : List Int) :
    l.map (Prod.fst ∘ fun i => (i, f i)) = l := by
  induction l with
  | nil => rfl
  | cons a rest ih => simp [ih]

theorem sorted_strLe_insertionSort (l : List String) :
    (l.insertionSort (fun a b => strLe a b = true)).Sorted
      (fun a b => strLe a b = true) := by
  have h1 : IsTotal String (fun a b => strLe a b = true) :=
    ⟨fun a b => charListLe_total a.data b.data⟩
  have h2 : IsTrans String (fun a b => strLe a b = true) :=
    ⟨fun a b c => charListLe_trans a.data b.data c.data⟩
  exact List.sorted_insertionSort _ _

/-! ## The claims -/

/-- C6: for every directory configuration and filesystem state,
get_all_xyz_files returns a lexicographically sorted sequence containing
exactly the .xyz files of the existing configured directories (as a
multiset: a permutation of their concatenated filtered listings), and a
non-existent directory only produces a warning, without aborting the
enumeration. -/
theorem c6_enumerator_sorted_exact (dirs : List String) (dfs : DirFS) :
    ((get_all_xyz_files dirs dfs).1.Sorted (fun a b => strLe a b = true)) ∧
    ((get_all_xyz_files dirs dfs).1.Perm (dirs.flatMap (xyzFilesOf dfs))) ∧
    ((get_all_xyz_files dirs dfs).2 =
      (dirs.filter (fun d => (alGet dfs d).isNone)).map
        (fun d => "Warning: Directory not found: " ++ d)) := by
  unfold get_all_xyz_files
  rw [enum_foldl_spec]
  simp only [List.nil_append]
  exact ⟨sorted_strLe_insertionSort _, List.perm_insertionSort _ _, trivial⟩

/-- C9: when no file in the input directory matches the *.csv pattern,
combine_xtb reports this and returns with the filesystem unchanged (in
particular the output file is neither written nor created) and with no
exception escaping. -/
theorem c9_combiner_zero_files (fs : FS) (input_dir output_file : String)
    (h : globCsv fs input_dir = []) :
    combine_xtb fs input_dir output_file =
      ⟨fs, ["Searching for CSV files in: " ++ input_dir,
            "Error: No .csv files found in " ++ input_dir ++
              ". Nothing to combine."],
       none⟩ := by
  unfold combine_xtb
  rw [h]
  rfl

/-- Witness for C9 at a concrete input: the default directories with an
empty filesystem. -/
theorem c9_combiner_zero_files_witness :
    combine_xtb [] "data/BSE/xtb_reps" "data/BSE/xtb_features_combined_test.csv" =
      ⟨[], ["Searching for CSV files in: data/BSE/xtb_reps",
            "Error: No .csv files found in data/BSE/xtb_reps" ++
              ". Nothing to combine."],
       none⟩ :=
  c9_combiner_zero_files [] "data/BSE/xtb_reps"
    "data/BSE/xtb_features_combined_test.csv" rfl

/-- C5 (counterexample): with a dataset of one geometry file and
start_index -2, batch_size 50, the claim would require iterating the
indices of [-2, min(48, 1)) = [-2, -1, 0]; instead the run dies at the
first index with an uncaught IndexError (list subscription at -2 in a
list of length 1), so no index is visited. -/
theorem c5_counterexample_negative_start_crashes :
    (generate_batch oracleAllOk ["geoms"] [("geoms", ["a.xyz"])]
      (-2) 50 "out" []).uncaught = some "IndexError: list index out of range" ∧
    (generate_batch oracleAllOk ["geoms"] [("geoms", ["a.xyz"])]
      (-2) 50 "out" []).state.visited.map Prod.fst ≠
      intRange (-2) (min ((-2) + 50) 1) := by
  exact ⟨rfl, by decide⟩

/-- C5 (amended): whenever every index of the clamped range is a valid
Python index into the sorted file list — start_index ≥ 0 suffices, and
so does |start_index| ≤ dataset size — generate_batch visits exactly the
indices of [start, min(start + batch_size, N)) in order and exits
normally; in particular with start_index ≥ N it visits no molecule and
still exits normally. (The unamended claim fails only for
start_index < -N, where the range is nonempty but the first subscript
raises an uncaught IndexError.) -/
theorem c5_amended_iterates_clamped_range (o : Oracle) (dirs : List String)
    (dfs : DirFS) (start_index batch_size : Int) (output_dir : String)
    (fs0 : FS)
    (hvalid : 0 ≤ start_index ∨
      start_index.natAbs ≤ (get_all_xyz_files dirs dfs).1.length) :
    (generate_batch o dirs dfs start_index batch_size output_dir fs0).uncaught
      = none ∧
    ((generate_batch o dirs dfs start_index batch_size output_dir
        fs0).state.visited.map Prod.fst =
      intRange start_index (min (start_index + batch_size)
        (((get_all_xyz_files dirs dfs).1.length : Int)))) ∧
    ((((get_all_xyz_files dirs dfs).1.length : Int)) ≤ start_index →
      (generate_batch o dirs dfs start_index batch_size output_dir
        fs0).state.visited = []) := by
  have hval := valid_of_bound (get_all_xyz_files dirs dfs).1 start_index
    batch_size hvalid
  rw [generate_batch_eq]
  obtain ⟨h1, h2⟩ := runIndices_valid o output_dir _ _ _ hval
  refine ⟨h1, ?_, ?_⟩
  · rw [h2]
    simp only [List.nil_append, List.map_map]
    exact map_fst_pair _ _
  · intro hge
    rw [h2]
    simp only [List.nil_append]
    rw [intRange_eq_nil (le_trans (min_le_right _ _) hge)]
    rfl

/-- Witness for C5 (amended) at the spec's end-to-end scenario: a
dataset of 120 geometry files, start_index 100, batch_size 50. -/
theorem c5_amended_iterates_clamped_range_witness :
    (generate_batch oracleAllOk ["geoms"] dfs120 100 50 "out" []).uncaught
      = none ∧
    ((generate_batch oracleAllOk ["geoms"] dfs120 100 50
        "out" []).state.visited.map Prod.fst =
      intRange 100 (min (100 + 50)
        (((get_all_xyz_files ["geoms"] dfs120).1.length : Int)))) ∧
    ((((get_all_xyz_files ["geoms"] dfs120).1.length : Int)) ≤ 100 →
      (generate_batch oracleAllOk ["geoms"] dfs120 100 50
        "out" []).state.visited = []) :=
  c5_amended_iterates_clamped_range oracleAllOk ["geoms"] dfs120 100 50
    "out" [] (Or.inl (by decide))

/-- C10: for a negative start_index whose absolute value is at most the
dataset size (and a positive batch size), generate_batch neither errors
nor processes an empty batch: it visits exactly the indices of
[start, min(start + batch_size, N)), which is nonempty, and every
negative index resolves its geometry file from the back of the sorted
file list (files[N - |index|]). -/
theorem c10_negative_start_tail_indexing (o : Oracle) (dirs : List String)
    (dfs : DirFS) (start_index batch_size : Int) (output_dir : String)
    (fs0 : FS)
    (hneg : start_index < 0)
    (hsize : start_index.natAbs ≤ (get_all_xyz_files dirs dfs).1.length)
    (hbs : 1 ≤ batch_size) :
    (generate_batch o dirs dfs start_index batch_size output_dir fs0).uncaught
      = none ∧
    ((generate_batch o dirs dfs start_index batch_size output_dir
        fs0).state.visited.map Prod.fst =
      intRange start_index (min (start_index + batch_size)
        (((get_all_xyz_files dirs dfs).1.length : Int)))) ∧
    (generate_batch o dirs dfs start_index batch_size output_dir
      fs0).state.visited ≠ [] ∧
    (∀ q ∈ (generate_batch o dirs dfs start_index batch_size output_dir
        fs0).state.visited, q.1 < 0 →
      some q.2 = (get_all_xyz_files dirs dfs).1[
        (get_all_xyz_files dirs dfs).1.length - q.1.natAbs]?) := by
  have hval := valid_of_bound (get_all_xyz_files dirs dfs).1 start_index
    batch_size (Or.inr hsize)
  rw [generate_batch_eq]
  obtain ⟨h1, h2⟩ := runIndices_valid o output_dir _ _ _ hval
  have hlt : start_index < min (start_index + batch_size)
      (((get_all_xyz_files dirs dfs).1.length : Int)) := by
    rw [lt_min_iff]
    constructor
    · omega
    · have : (0 : Int) ≤ ((get_all_xyz_files dirs dfs).1.length : Int) := by
        positivity
      omega
  refine ⟨h1, ?_, ?_, ?_⟩
  · rw [h2]
    simp only [List.nil_append, List.map_map]
    exact map_fst_pair _ _
  · rw [h2]
    simp only [List.nil_append]
    rw [intRange_cons hlt]
    simp
  · intro q hq hqneg
    rw [h2] at hq
    simp only [List.nil_append] at hq
    obtain ⟨i, hi, hiq⟩ := List.mem_map.mp hq
    have hi2 := mem_intRange.mp hi
    rw [← hiq] at hqneg ⊢
    simp only [] at hqneg ⊢
    have hnat : i.natAbs ≤ (get_all_xyz_files dirs dfs).1.length := by omega
    have hpg : pythonGet (get_all_xyz_files dirs dfs).1 i =
        (get_all_xyz_files dirs dfs).1[
          (get_all_xyz_files dirs dfs).1.length - i.natAbs]? :=
      pythonGet_neg hqneg hnat
    have hsome : (pythonGet (get_all_xyz_files dirs dfs).1 i).isSome = true :=
      pythonGet_isSome (Or.inr ⟨hqneg, hnat⟩)
    obtain ⟨v, hv⟩ := Option.isSome_iff_exists.mp hsome
    rw [← hpg, hv]
    simp [xyzAt, hv]

/-- Witness for C10 at a concrete input: two geometry files, start_index
-2, batch_size 1 (so exactly the last-but-one file, under index -2). -/
theorem c10_negative_start_tail_indexing_witness :
    (generate_batch oracleAllOk ["geoms"] [("geoms", ["a.xyz", "b.xyz"])]
      (-2) 1 "out" []).uncaught = none ∧
    ((generate_batch oracleAllOk ["geoms"] [("geoms", ["a.xyz", "b.xyz"])]
        (-2) 1 "out" []).state.visited.map Prod.fst =
      intRange (-2) (min ((-2) + 1)
        (((get_all_xyz_files ["geoms"]
          [("geoms", ["a.xyz", "b.xyz"])]).1.length : Int)))) ∧
    (generate_batch oracleAllOk ["geoms"] [("geoms", ["a.xyz", "b.xyz"])]
      (-2) 1 "out" []).state.visited ≠ [] ∧
    (∀ q ∈ (generate_batch oracleAllOk ["geoms"]
        [("geoms", ["a.xyz", "b.xyz"])] (-2) 1 "out" []).state.visited,
      q.1 < 0 →
      some q.2 = (get_all_xyz_files ["geoms"]
        [("geoms", ["a.xyz", "b.xyz"])]).1[
        (get_all_xyz_files ["geoms"]
          [("geoms", ["a.xyz", "b.xyz"])]).1.length - q.1.natAbs]?) :=
  c10_negative_start_tail_indexing oracleAllOk ["geoms"]
    [("geoms", ["a.xyz", "b.xyz"])] (-2) 1 "out" []
    (by decide) (by decide) (by decide)

/-- C1 (counterexample): on a spawn/capture exception
(except Exception branch, source lines 107-111) the code logs only the
exception message and continues: unlike the CalledProcessError branch it
neither logs captured stdout/stderr nor removes the output file. With an
environment where the child wrote the output file before the exception
surfaced, the file is still present after the run, contradicting
"removes the per-molecule output file if it is present" for every
external-tool failure. -/
theorem c1_counterexample_spawn_exception_keeps_file :
    (generate_batch oracleSpawnExc ["geoms"] [("geoms", ["a.xyz"])]
      0 1 "out" []).state.log =
      [LogEntry.processingHeader 0 1 1, LogEntry.runningXtb 0 "a",
       LogEntry.unexpectedSpawnError "geoms/a.xyz" "UnicodeDecodeError"] ∧
    fsExists (generate_batch oracleSpawnExc ["geoms"] [("geoms", ["a.xyz"])]
      0 1 "out" []).state.fs "out/a.csv" = true := by
  exact ⟨by decide, by decide⟩

/-- C1 (amended): for a molecule whose output file is initially absent:
on a non-zero exit of the bash script the failure is logged together
with the captured stdout and stderr, the output file is removed if
present, and the molecule is skipped (no morfeus step); on any other
exception around the subprocess call the failure is logged with only the
exception message and the molecule is skipped, but whatever the external
process wrote at the output path is left in place. -/
theorem c1_amended_external_failure_handling (o : Oracle)
    (outputDir : String) (index : Int) (xyzPath : String) (st : BatchState)
    (habsent : fsExists st.fs (outFilePath outputDir xyzPath) = false) :
    (∀ code out err w,
      o.runBash xyzPath = ExtOutcome.exitFailure code out err w →
      processMolecule o outputDir index xyzPath st =
        { st with
          fs := fsRemove (applyWritten st.fs (outFilePath outputDir xyzPath) w)
                  (outFilePath outputDir xyzPath)
          log := st.log ++ [LogEntry.runningXtb index (molName xyzPath),
                            LogEntry.bashFailed xyzPath code out err]
          bashCalls := st.bashCalls ++ [(index, xyzPath)] } ∧
      fsGet (processMolecule o outputDir index xyzPath st).fs
        (outFilePath outputDir xyzPath) = none) ∧
    (∀ msg w, o.runBash xyzPath = ExtOutcome.spawnException msg w →
      processMolecule o outputDir index xyzPath st =
        { st with
          fs := applyWritten st.fs (outFilePath outputDir xyzPath) w
          log := st.log ++ [LogEntry.runningXtb index (molName xyzPath),
                            LogEntry.unexpectedSpawnError xyzPath msg]
          bashCalls := st.bashCalls ++ [(index, xyzPath)] }) := by
  constructor
  · intro code out err w hb
    refine ⟨processMolecule_exitFailure o outputDir index xyzPath st habsent
      code out err w hb, ?_⟩
    rw [processMolecule_exitFailure o outputDir index xyzPath st habsent
      code out err w hb]
    exact fsGet_fsRemove_self _ _
  · intro msg w hb
    exact processMolecule_spawnExc o outputDir index xyzPath st habsent msg w hb

/-- Witness for C1 (amended) at a concrete input: the empty starting
state with an environment whose bash script exits non-zero. -/
theorem c1_amended_external_failure_handling_witness :
    (∀ code out err w,
      oracleExitFail.runBash "geoms/a.xyz" =
        ExtOutcome.exitFailure code out err w →
      processMolecule oracleExitFail "out" 0 "geoms/a.xyz"
          ⟨[], [], [], [], []⟩ =
        { (⟨[], [], [], [], []⟩ : BatchState) with
          fs := fsRemove (applyWritten [] (outFilePath "out" "geoms/a.xyz") w)
                  (outFilePath "out" "geoms/a.xyz")
          log := [] ++ [LogEntry.runningXtb 0 (molName "geoms/a.xyz"),
                        LogEntry.bashFailed "geoms/a.xyz" code out err]
          bashCalls := [] ++ [(0, "geoms/a.xyz")] } ∧
      fsGet (processMolecule oracleExitFail "out" 0 "geoms/a.xyz"
          ⟨[], [], [], [], []⟩).fs
        (outFilePath "out" "geoms/a.xyz") = none) ∧
    (∀ msg w,
      oracleExitFail.runBash "geoms/a.xyz" = ExtOutcome.spawnException msg w →
      processMolecule oracleExitFail "out" 0 "geoms/a.xyz"
          ⟨[], [], [], [], []⟩ =
        { (⟨[], [], [], [], []⟩ : BatchState) with
          fs := applyWritten [] (outFilePath "out" "geoms/a.xyz") w
          log := [] ++ [LogEntry.runningXtb 0 (molName "geoms/a.xyz"),
                        LogEntry.unexpectedSpawnError "geoms/a.xyz" msg]
          bashCalls := [] ++ [(0, "geoms/a.xyz")] }) :=
  c1_amended_external_failure_handling oracleExitFail "out" 0 "geoms/a.xyz"
    ⟨[], [], [], [], []⟩ (by decide)

/-- C2 (counterexample): the Combiner has no exception handler, so a
failure inside it is propagated: with a single discovered CSV file that
is empty, pandas read_csv raises EmptyDataError and the process dies
with a non-zero exit, with no output written. -/
theorem c2_counterexample_combiner_error_propagates :
    (combine_xtb [("d/a.csv", [])] "d" "out/combined.csv").uncaught =
      some "EmptyDataError: No columns to parse from file" ∧
    (combine_xtb [("d/a.csv", [])] "d" "out/combined.csv").fs =
      [("d/a.csv", [])] := by
  exact ⟨rfl, rfl⟩

/-- C2 (amended): every failure of a per-molecule step (external tool or
augmentation) is caught and skipped at molecule granularity —
generate_batch exits normally for every environment whenever its index
range is valid — and the Combiner exits normally when all its file reads
succeed (and in the zero-file case); however a failing read inside the
Combiner is not caught and escapes as a non-zero exit. -/
theorem c2_amended_per_molecule_failures_contained (o : Oracle)
    (dirs : List String) (dfs : DirFS) (start_index batch_size : Int)
    (output_dir : String) (fs0 : FS) (cfs : FS)
    (input_dir output_file : String)
    (hvalid : 0 ≤ start_index ∨
      start_index.natAbs ≤ (get_all_xyz_files dirs dfs).1.length) :
    (generate_batch o dirs dfs start_index batch_size output_dir fs0).uncaught
      = none ∧
    (∀ dfl, readAll cfs (globCsv cfs input_dir) = Except.ok dfl →
      (combine_xtb cfs input_dir output_file).uncaught = none) ∧
    (globCsv cfs input_dir = [] →
      (combine_xtb cfs input_dir output_file).uncaught = none) := by
  refine ⟨?_, ?_, ?_⟩
  · rw [generate_batch_eq]
    exact (runIndices_valid o output_dir _ _ _
      (valid_of_bound (get_all_xyz_files dirs dfs).1 start_index batch_size
        hvalid)).1
  · intro dfl hra
    unfold combine_xtb
    cases hemp : (globCsv cfs input_dir).isEmpty with
    | true => simp [hemp]
    | false => simp [hemp, hra]
  · intro hg
    unfold combine_xtb
    rw [hg]
    rfl

/-- Witness for C2 (amended) at a concrete input: an environment where
every bash call exits non-zero, and a Combiner input directory holding
one well-formed CSV file. -/
theorem c2_amended_per_molecule_failures_contained_witness :
    (generate_batch oracleExitFail ["geoms"] [("geoms", ["a.xyz", "b.xyz"])]
      0 50 "out" []).uncaught = none ∧
    (∀ dfl, readAll [("d/a.csv", [["mol_name", "x"], ["a", "1"]])]
        (globCsv [("d/a.csv", [["mol_name", "x"], ["a", "1"]])] "d") =
        Except.ok dfl →
      (combine_xtb [("d/a.csv", [["mol_name", "x"], ["a", "1"]])] "d"
        "out/combined.csv").uncaught = none) ∧
    (globCsv [("d/a.csv", [["mol_name", "x"], ["a", "1"]])] "d" = [] →
      (combine_xtb [("d/a.csv", [["mol_name", "x"], ["a", "1"]])] "d"
        "out/combined.csv").uncaught = none) :=
  c2_amended_per_molecule_failures_contained oracleExitFail ["geoms"]
    [("geoms", ["a.xyz", "b.xyz"])] 0 50 "out" []
    [("d/a.csv", [["mol_name", "x"], ["a", "1"]])] "d" "out/combined.csv"
    (Or.inl (by decide))

/-- C7 (counterexample): a molecule whose external invocation fails does
not block later molecules — but its output file is not always absent
afterwards: when the failure is a non-CalledProcessError exception that
surfaced after the child wrote the file, the file survives the run. Here
molecule a fails that way while molecule b is still processed to
success, and out/a.csv is present at the end. -/
theorem c7_counterexample_failed_molecule_file_remains :
    (generate_batch oracleMixed ["geoms"] [("geoms", ["a.xyz", "b.xyz"])]
      0 2 "out" []).state.log.contains (LogEntry.combinedSuccess 1 "b")
      = true ∧
    fsExists (generate_batch oracleMixed ["geoms"]
      [("geoms", ["a.xyz", "b.xyz"])] 0 2 "out" []).state.fs "out/a.csv"
      = true := by
  exact ⟨by decide, by decide⟩

/-- C7 (amended): for a valid index range, no molecule failure prevents
later molecules: the run exits normally and visits every index of the
range regardless of the environment; and a molecule whose bash script
exits non-zero ends with no output file, provided its file was absent at
the start of the run and no other molecule of the range shares its name
(a spawn/capture exception, by contrast, can leave the file in place, as
the counterexample shows). -/
theorem c7_amended_failure_isolation (o : Oracle) (dirs : List String)
    (dfs : DirFS) (start_index batch_size : Int) (output_dir : String)
    (fs0 : FS)
    (hvalid : 0 ≤ start_index ∨
      start_index.natAbs ≤ (get_all_xyz_files dirs dfs).1.length) :
    (generate_batch o dirs dfs start_index batch_size output_dir fs0).uncaught
      = none ∧
    ((generate_batch o dirs dfs start_index batch_size output_dir
        fs0).state.visited.map Prod.fst =
      intRange start_index (min (start_index + batch_size)
        (((get_all_xyz_files dirs dfs).1.length : Int)))) ∧
    (∀ i ∈ intRange start_index (min (start_index + batch_size)
        (((get_all_xyz_files dirs dfs).1.length : Int))),
      (∃ code out err w,
        o.runBash (xyzAt (get_all_xyz_files dirs dfs).1 i) =
          ExtOutcome.exitFailure code out err w) →
      fsGet fs0 (outFilePath output_dir
        (xyzAt (get_all_xyz_files dirs dfs).1 i)) = none →
      (∀ j ∈ intRange start_index (min (start_index + batch_size)
          (((get_all_xyz_files dirs dfs).1.length : Int))),
        molName (xyzAt (get_all_xyz_files dirs dfs).1 j) =
          molName (xyzAt (get_all_xyz_files dirs dfs).1 i) → j = i) →
      fsGet (generate_batch o dirs dfs start_index batch_size output_dir
          fs0).state.fs
        (outFilePath output_dir (xyzAt (get_all_xyz_files dirs dfs).1 i))
        = none) := by
  have hval := valid_of_bound (get_all_xyz_files dirs dfs).1 start_index
    batch_size hvalid
  rw [generate_batch_eq]
  obtain ⟨h1, h2⟩ := runIndices_valid o output_dir _ _ _ hval
  refine ⟨h1, ?_, ?_⟩
  · rw [h2]
    simp only [List.nil_append, List.map_map]
    exact map_fst_pair _ _
  · intro i hi hfail h0 huniq
    apply runIndices_target_absent o output_dir _ _ _ _ hval h0
    intro j hj heq
    have hmn := outFilePath_inj _ _ _ heq
    rw [huniq j hj hmn]
    exact hfail

/-- Witness for C7 (amended) at a concrete input: two molecules whose
bash scripts both exit non-zero. -/
theorem c7_amended_failure_isolation_witness :
    (generate_batch oracleExitFail ["geoms"] [("geoms", ["a.xyz", "b.xyz"])]
      0 50 "out" []).uncaught = none ∧
    ((generate_batch oracleExitFail ["geoms"]
        [("geoms", ["a.xyz", "b.xyz"])] 0 50 "out" []).state.visited.map
        Prod.fst =
      intRange 0 (min (0 + 50)
        (((get_all_xyz_files ["geoms"]
          [("geoms", ["a.xyz", "b.xyz"])]).1.length : Int)))) ∧
    (∀ i ∈ intRange 0 (min (0 + 50)
        (((get_all_xyz_files ["geoms"]
          [("geoms", ["a.xyz", "b.xyz"])]).1.length : Int))),
      (∃ code out err w,
        oracleExitFail.runBash (xyzAt (get_all_xyz_files ["geoms"]
          [("geoms", ["a.xyz", "b.xyz"])]).1 i) =
          ExtOutcome.exitFailure code out err w) →
      fsGet [] (outFilePath "out"
        (xyzAt (get_all_xyz_files ["geoms"]
          [("geoms", ["a.xyz", "b.xyz"])]).1 i)) = none →
      (∀ j ∈ intRange 0 (min (0 + 50)
          (((get_all_xyz_files ["geoms"]
            [("geoms", ["a.xyz", "b.xyz"])]).1.length : Int))),
        molName (xyzAt (get_all_xyz_files ["geoms"]
          [("geoms", ["a.xyz", "b.xyz"])]).1 j) =
          molName (xyzAt (get_all_xyz_files ["geoms"]
            [("geoms", ["a.xyz", "b.xyz"])]).1 i) → j = i) →
      fsGet (generate_batch oracleExitFail ["geoms"]
          [("geoms", ["a.xyz", "b.xyz"])] 0 50 "out" []).state.fs
        (outFilePath "out" (xyzAt (get_all_xyz_files ["geoms"]
          [("geoms", ["a.xyz", "b.xyz"])]).1 i)) = none) :=
  c7_amended_failure_isolation oracleExitFail ["geoms"]
    [("geoms", ["a.xyz", "b.xyz"])] 0 50 "out" [] (Or.inl (by decide))

/-- C3: augmentation is atomic. For a molecule whose bash step succeeded
(writing content c at its output path, which was absent before): if the
morfeus computation fails the output file is removed, so no file is
present afterwards; if it succeeds and the file read-back yields fewer
than two rows (StopIteration inside the same handler) the file is
likewise removed; and in the successful case the file is overwritten in
one step with exactly the fully combined header and data row — the
original columns followed by the five morfeus columns — constructed in
memory before the write. -/
theorem c3_augmentation_atomic (o : Oracle) (outputDir : String)
    (index : Int) (xyzPath : String) (st : BatchState)
    (habsent : fsExists st.fs (outFilePath outputDir xyzPath) = false)
    (c : FileContent) (hb : o.runBash xyzPath = ExtOutcome.success c) :
    (∀ e, o.morfeus xyzPath = Except.error e →
      fsGet (processMolecule o outputDir index xyzPath st).fs
        (outFilePath outputDir xyzPath) = none) ∧
    (∀ v, o.morfeus xyzPath = Except.ok v →
      (∀ hdr row restc, c = hdr :: row :: restc →
        fsGet (processMolecule o outputDir index xyzPath st).fs
          (outFilePath outputDir xyzPath) =
          some [hdr ++ morfeusHeader, row ++ morfeusData v]) ∧
      (c.length < 2 →
        fsGet (processMolecule o outputDir index xyzPath st).fs
          (outFilePath outputDir xyzPath) = none)) := by
  constructor
  · intro e hm
    simp only [processMolecule, habsent, Bool.false_eq_true, if_false, hb]
    unfold augmentStep
    simp only [hm]
    exact fsGet_fsRemove_self _ _
  · intro v hm
    constructor
    · intro hdr row restc hc
      subst hc
      simp only [processMolecule, habsent, Bool.false_eq_true, if_false, hb]
      unfold augmentStep
      simp only [hm, fsGet_fsSet_self]
    · intro hlen
      simp only [processMolecule, habsent, Bool.false_eq_true, if_false, hb]
      unfold augmentStep
      simp only [hm, fsGet_fsSet_self]
      rcases c with _ | ⟨hdr, _ | ⟨row, restc⟩⟩
      · exact fsGet_fsRemove_self _ _
      · exact fsGet_fsRemove_self _ _
      · simp only [List.length_cons] at hlen
        omega

/-- Witness for C3 at a concrete input: the empty starting state with an
environment whose bash script writes a two-row file and whose morfeus
step succeeds. -/
theorem c3_augmentation_atomic_witness :
    (∀ e, oracleAllOk.morfeus "geoms/a.xyz" = Except.error e →
      fsGet (processMolecule oracleAllOk "out" 0 "geoms/a.xyz"
          ⟨[], [], [], [], []⟩).fs
        (outFilePath "out" "geoms/a.xyz") = none) ∧
    (∀ v, oracleAllOk.morfeus "geoms/a.xyz" = Except.ok v →
      (∀ hdr row restc,
        ([["mol_name", "m"], ["m", "1"]] : FileContent) =
          hdr :: row :: restc →
        fsGet (processMolecule oracleAllOk "out" 0 "geoms/a.xyz"
            ⟨[], [], [], [], []⟩).fs
          (outFilePath "out" "geoms/a.xyz") =
          some [hdr ++ morfeusHeader, row ++ morfeusData v]) ∧
      (([["mol_name", "m"], ["m", "1"]] : FileContent).length < 2 →
        fsGet (processMolecule oracleAllOk "out" 0 "geoms/a.xyz"
            ⟨[], [], [], [], []⟩).fs
          (outFilePath "out" "geoms/a.xyz") = none)) :=
  c3_augmentation_atomic oracleAllOk "out" 0 "geoms/a.xyz"
    ⟨[], [], [], [], []⟩ (by decide) [["mol_name", "m"], ["m", "1"]] rfl

/-- C4: generate_batch is idempotent over an index range. Starting from
a state where no output file of the range exists, with pairwise distinct
molecule names, a valid index range and an environment where every
molecule of the range succeeds: the first run performs the bash
invocation and the morfeus augmentation exactly once per index of the
range (in order), and a second run over the same range performs zero
invocations of either step and leaves the filesystem — hence every
output file — exactly as the first run left it. -/
theorem c4_idempotent_over_range (o : Oracle) (dirs : List String)
    (dfs : DirFS) (start_index batch_size : Int) (output_dir : String)
    (fs0 : FS)
    (hvalid : 0 ≤ start_index ∨
      start_index.natAbs ≤ (get_all_xyz_files dirs dfs).1.length)
    (hok : ∀ i ∈ intRange start_index (min (start_index + batch_size)
        (((get_all_xyz_files dirs dfs).1.length : Int))),
      moleculeNoFailure o (xyzAt (get_all_xyz_files dirs dfs).1 i) = true)
    (hfresh : ∀ i ∈ intRange start_index (min (start_index + batch_size)
        (((get_all_xyz_files dirs dfs).1.length : Int))),
      fsGet fs0 (outFilePath output_dir
        (xyzAt (get_all_xyz_files dirs dfs).1 i)) = none)
    (hdist : (intRange start_index (min (start_index + batch_size)
        (((get_all_xyz_files dirs dfs).1.length : Int)))).Pairwise
      (fun a b => molName (xyzAt (get_all_xyz_files dirs dfs).1 a) ≠
        molName (xyzAt (get_all_xyz_files dirs dfs).1 b))) :
    (generate_batch o dirs dfs start_index batch_size output_dir fs0).uncaught
      = none ∧
    (generate_batch o dirs dfs start_index batch_size output_dir
        fs0).state.bashCalls =
      (intRange start_index (min (start_index + batch_size)
        (((get_all_xyz_files dirs dfs).1.length : Int)))).map
        (fun i => (i, xyzAt (get_all_xyz_files dirs dfs).1 i)) ∧
    (generate_batch o dirs dfs start_index batch_size output_dir
        fs0).state.morfeusCalls =
      (intRange start_index (min (start_index + batch_size)
        (((get_all_xyz_files dirs dfs).1.length : Int)))).map
        (fun i => (i, xyzAt (get_all_xyz_files dirs dfs).1 i)) ∧
    (generate_batch o dirs dfs start_index batch_size output_dir
      (generate_batch o dirs dfs start_index batch_size output_dir
        fs0).state.fs).uncaught = none ∧
    (generate_batch o dirs dfs start_index batch_size output_dir
      (generate_batch o dirs dfs start_index batch_size output_dir
        fs0).state.fs).state.bashCalls = [] ∧
    (generate_batch o dirs dfs start_index batch_size output_dir
      (generate_batch o dirs dfs start_index batch_size output_dir
        fs0).state.fs).state.morfeusCalls = [] ∧
    (generate_batch o dirs dfs start_index batch_size output_dir
      (generate_batch o dirs dfs start_index batch_size output_dir
        fs0).state.fs).state.fs =
    (generate_batch o dirs dfs start_index batch_size output_dir
      fs0).state.fs := by
  have hval := valid_of_bound (get_all_xyz_files dirs dfs).1 start_index
    batch_size hvalid
  obtain ⟨a1, a2, a3, a4, a5⟩ := runIndices_allSuccess o output_dir
    (get_all_xyz_files dirs dfs).1
    (intRange start_index (min (start_index + batch_size)
      (((get_all_xyz_files dirs dfs).1.length : Int))))
    { fs := fs0
      log := [LogEntry.processingHeader start_index
        (min (start_index + batch_size)
          (((get_all_xyz_files dirs dfs).1.length : Int)))
        (((get_all_xyz_files dirs dfs).1.length : Int))]
      visited := []
      bashCalls := []
      morfeusCalls := [] }
    hval hok hfresh hdist
  rw [generate_batch_eq]
  obtain ⟨b1, b2, b3, b4⟩ := runIndices_allPresent o output_dir
    (get_all_xyz_files dirs dfs).1
    (intRange start_index (min (start_index + batch_size)
      (((get_all_xyz_files dirs dfs).1.length : Int))))
    { fs := (runIndices o output_dir (get_all_xyz_files dirs dfs).1
        (intRange start_index (min (start_index + batch_size)
          (((get_all_xyz_files dirs dfs).1.length : Int))))
        { fs := fs0
          log := [LogEntry.processingHeader start_index
            (min (start_index + batch_size)
              (((get_all_xyz_files dirs dfs).1.length : Int)))
            (((get_all_xyz_files dirs dfs).1.length : Int))]
          visited := []
          bashCalls := []
          morfeusCalls := [] }).state.fs
      log := [LogEntry.processingHeader start_index
        (min (start_index + batch_size)
          (((get_all_xyz_files dirs dfs).1.length : Int)))
        (((get_all_xyz_files dirs dfs).1.length : Int))]
      visited := []
      bashCalls := []
      morfeusCalls := [] }
    hval (fun i hi => by simpa [fsExists] using a4 i hi)
  refine ⟨a1, by simpa using a2, by simpa using a3, b1, by simpa using b3,
    by simpa using b4, by simpa using b2⟩

/-- Witness for C4 at a concrete input: two molecules with distinct
names, an all-success environment and an initially empty filesystem. -/
theorem c4_idempotent_over_range_witness :
    (generate_batch oracleAllOk ["geoms"] [("geoms", ["a.xyz", "b.xyz"])]
      0 50 "out" []).uncaught = none ∧
    (generate_batch oracleAllOk ["geoms"] [("geoms", ["a.xyz", "b.xyz"])]
        0 50 "out" []).state.bashCalls =
      (intRange 0 (min (0 + 50)
        (((get_all_xyz_files ["geoms"]
          [("geoms", ["a.xyz", "b.xyz"])]).1.length : Int)))).map
        (fun i => (i, xyzAt (get_all_xyz_files ["geoms"]
          [("geoms", ["a.xyz", "b.xyz"])]).1 i)) ∧
    (generate_batch oracleAllOk ["geoms"] [("geoms", ["a.xyz", "b.xyz"])]
        0 50 "out" []).state.morfeusCalls =
      (intRange 0 (min (0 + 50)
        (((get_all_xyz_files ["geoms"]
          [("geoms", ["a.xyz", "b.xyz"])]).1.length : Int)))).map
        (fun i => (i, xyzAt (get_all_xyz_files ["geoms"]
          [("geoms", ["a.xyz", "b.xyz"])]).1 i)) ∧
    (generate_batch oracleAllOk ["geoms"] [("geoms", ["a.xyz", "b.xyz"])]
      0 50 "out"
      (generate_batch oracleAllOk ["geoms"] [("geoms", ["a.xyz", "b.xyz"])]
        0 50 "out" []).state.fs).uncaught = none ∧
    (generate_batch oracleAllOk ["geoms"] [("geoms", ["a.xyz", "b.xyz"])]
      0 50 "out"
      (generate_batch oracleAllOk ["geoms"] [("geoms", ["a.xyz", "b.xyz"])]
        0 50 "out" []).state.fs).state.bashCalls = [] ∧
    (generate_batch oracleAllOk ["geoms"] [("geoms", ["a.xyz", "b.xyz"])]
      0 50 "out"
      (generate_batch oracleAllOk ["geoms"] [("geoms", ["a.xyz", "b.xyz"])]
        0 50 "out" []).state.fs).state.morfeusCalls = [] ∧
    (generate_batch oracleAllOk ["geoms"] [("geoms", ["a.xyz", "b.xyz"])]
      0 50 "out"
      (generate_batch oracleAllOk ["geoms"] [("geoms", ["a.xyz", "b.xyz"])]
        0 50 "out" []).state.fs).state.fs =
    (generate_batch oracleAllOk ["geoms"] [("geoms", ["a.xyz", "b.xyz"])]
      0 50 "out" []).state.fs :=
  c4_idempotent_over_range oracleAllOk ["geoms"]
    [("geoms", ["a.xyz", "b.xyz"])] 0 50 "out" []
    (Or.inl (by decide)) (by decide) (by decide) (by decide)

/-- C8: Combiner correctness. Given a non-empty set of discovered
per-molecule CSV files, each holding the shared header (with distinct
column names) and exactly one data row of matching width, combine_xtb
exits normally and writes at the output path a single CSV whose first
row is exactly the shared header — no row-index column — followed by one
data row per input file (so the data-row count equals the number of
files, the sum of their single rows). -/
theorem c8_combiner_correct (fs : FS) (input_dir output_file : String)
    (hdr : List String)
    (hne : globCsv fs input_dir ≠ [])
    (hwf : ∀ f ∈ globCsv fs input_dir, wellFormedRow fs hdr f = true)
    (hnd : hdr.Nodup) :
    (combine_xtb fs input_dir output_file).uncaught = none ∧
    fsGet (combine_xtb fs input_dir output_file).fs output_file =
      some (hdr :: (globCsv fs input_dir).map (dataRowOf fs)) ∧
    ((globCsv fs input_dir).map (dataRowOf fs)).length =
      (globCsv fs input_dir).length := by
  have hra := readAll_wf fs hdr (globCsv fs input_dir) hwf
  have hpc := pdConcat_wf fs hdr (globCsv fs input_dir) hnd hne hwf
  have hemp : (globCsv fs input_dir).isEmpty = false := by
    cases hgl : globCsv fs input_dir with
    | nil => exact absurd hgl hne
    | cons a b => rfl
  unfold combine_xtb
  simp only [hemp, Bool.false_eq_true, if_false, hra, hpc]
  refine ⟨trivial, ?_, by simp⟩
  simp only [toCsv, Bool.false_eq_true, if_false]
  exact fsGet_fsSet_self _ _ _

/-- Witness for C8 at a concrete input: two per-molecule files with the
shared header [mol_name, x] and one data row each. -/
theorem c8_combiner_correct_witness :
    (combine_xtb [("d/a.csv", [["mol_name", "x"], ["a", "1"]]),
                  ("d/b.csv", [["mol_name", "x"], ["b", "2"]])]
      "d" "out/combined.csv").uncaught = none ∧
    fsGet (combine_xtb [("d/a.csv", [["mol_name", "x"], ["a", "1"]]),
                        ("d/b.csv", [["mol_name", "x"], ["b", "2"]])]
        "d" "out/combined.csv").fs "out/combined.csv" =
      some (["mol_name", "x"] ::
        (globCsv [("d/a.csv", [["mol_name", "x"], ["a", "1"]]),
                  ("d/b.csv", [["mol_name", "x"], ["b", "2"]])] "d").map
          (dataRowOf [("d/a.csv", [["mol_name", "x"], ["a", "1"]]),
                      ("d/b.csv", [["mol_name", "x"], ["b", "2"]])])) ∧
    ((globCsv [("d/a.csv", [["mol_name", "x"], ["a", "1"]]),
               ("d/b.csv", [["mol_name", "x"], ["b", "2"]])] "d").map
        (dataRowOf [("d/a.csv", [["mol_name", "x"], ["a", "1"]]),
                    ("d/b.csv", [["mol_name", "x"], ["b", "2"]])])).length =
      (globCsv [("d/a.csv", [["mol_name", "x"], ["a", "1"]]),
                ("d/b.csv", [["mol_name", "x"], ["b", "2"]])] "d").length :=
  c8_combiner_correct
    [("d/a.csv", [["mol_name", "x"], ["a", "1"]]),
     ("d/b.csv", [["mol_name", "x"], ["b", "2"]])]
    "d" "out/combined.csv" ["mol_name", "x"]
    (by decide) (by decide) (by decide)

end XTBFeatures
